import Mathlib

/-!
# Verification of the adb-backup script (`src/main.py`)

Shallow embedding of the backup script's decision logic, transfer
executor, progress store and orchestrator loop.

Modelling conventions:
* The local filesystem is a map `String → Option Nat` from a path to the
  size of the file stored there (`none` = no file).
* Remote primitives (`adb devices`, `stat`, `pull`), the two explicit
  local-failure paths of the source (`os.remove` under a `try/except`) and
  the unguarded `os.makedirs(LOCAL_BACKUP_DIR, exist_ok=True)` of line 207
  (outside every `try`, so its failure escapes `main()`) are oracles
  bundled in an environment; local writes whose failure the source only
  logs (log files, `save_progress`'s disk write, the per-directory
  `makedirs` of `create_local_directory_structure`) are modelled as
  reliable.
* Python exceptions that the source catches become ordinary values; the
  embedding is total by construction.
-/

namespace AdbBackup

/-- `LOCAL_BACKUP_DIR` constant of `main.py`. -/
def LOCAL_BACKUP_DIR : String := "android_backup"

/-- `ANDROID_ROOT` constant of `main.py`. -/
def ANDROID_ROOT : String := "/sdcard/"

/-- Python `s.lstrip('/')`: drop every leading `'/'` character. -/
def lstripSlash (s : String) : String := ⟨s.data.dropWhile (· == '/')⟩

/-- POSIX `os.path.join a b` for the two-argument calls in `main.py`:
an absolute second component replaces the first, otherwise the parts are
joined with a separator unless `a` is empty or already ends in one. -/
def osPathJoin (a b : String) : String :=
  if b.data.head? = some '/' then b
  else if a.data = [] ∨ a.data.getLast? = some '/' then ⟨a.data ++ b.data⟩
  else ⟨a.data ++ '/' :: b.data⟩

/-- The local path `main` computes for a remote path (`main.py` lines
233-234): `os.path.join(LOCAL_BACKUP_DIR, android_path.lstrip('/'))`. -/
def localPathFor (android_path : String) : String :=
  osPathJoin LOCAL_BACKUP_DIR (lstripSlash android_path)

/-- Drop a prefix from a string when it is present (used only to state the
spec's words about path derivation, not taken from the source). -/
def stripPrefixStr (pre s : String) : String :=
  if pre.data.isPrefixOf s.data then ⟨s.data.drop pre.data.length⟩ else s

/-- Modelled from the spec: "path derived deterministically from RemotePath
by stripping the remote root prefix and reparenting under the local root". -/
def specLocalPath (android_path : String) : String :=
  osPathJoin LOCAL_BACKUP_DIR (stripPrefixStr ANDROID_ROOT android_path)

/-- One value of the `progress` dict of `main.py` (`completed`,
`timestamp`, `local_path`). -/
structure ProgressRecord where
  completed : Bool
  timestamp : Nat
  local_path : String
deriving DecidableEq, Repr

/-- The in-memory `progress` dict: an insertion-ordered association list
from android path to record, as a Python dict of string keys. -/
abbrev Progress := List (String × ProgressRecord)

/-- Python `android_path in progress`. -/
def Progress.hasKey (pr : Progress) (k : String) : Bool :=
  pr.any (fun e => e.1 == k)

/-- Python `progress[k] = v`: overwrite in place, or append a new binding. -/
def Progress.insert (pr : Progress) (k : String) (v : ProgressRecord) : Progress :=
  if pr.hasKey k then pr.map (fun e => if e.1 == k then (k, v) else e)
  else pr ++ [(k, v)]

/-- Local filesystem contents: size of the file at each path, if any. -/
abbrev LocalFS := String → Option Nat

/-- Write (or remove, with `none`) the entry at one path. -/
def setFile (fs : LocalFS) (p : String) (v : Option Nat) : LocalFS :=
  fun q => if q == p then v else fs q

/-- `os.remove p` when it succeeds. -/
def removeFile (fs : LocalFS) (p : String) : LocalFS := setFile fs p none

/-- `file_needs_backup(android_path, local_path, progress)` of `main.py`
(lines 135-154), returning the decision together with the local
filesystem after the call.

* `deviceSize ap` is the result of `get_file_size_on_device(ap)` (`none`
  covers every error path of that helper, which returns `None`);
* `removeOk lp` tells whether the `os.remove(local_path)` call succeeds;
  when it raises, the surrounding `except` swallows the error and the
  function still falls through to `return True`.

The Python guard `local_size == device_size and device_size is not None`
is exactly `deviceSize ap = some local_size`. -/
def file_needs_backup (deviceSize : String → Option Nat) (removeOk : String → Bool)
    (android_path local_path : String) (progress : Progress) (fs : LocalFS) :
    Bool × LocalFS :=
  if progress.hasKey android_path ∧ (fs local_path).isSome then
    let local_size := (fs local_path).getD 0
    if deviceSize android_path = some local_size then (false, fs)
    else if removeOk local_path then (true, removeFile fs local_path)
    else (true, fs)
  else (true, fs)

/-- Outcome of one `adb pull` invocation, as seen by `pull_file`:
either the subprocess call returns (with its exit status and the local
file it left behind), or it times out (leaving a possibly partial local
file behind). -/
inductive PullOutcome where
  | completed (exitZero : Bool) (localAfter : Option Nat)
  | timeout (localAfter : Option Nat)
deriving DecidableEq, Repr

/-- `pull_file(android_path, local_path)` of `main.py` (lines 156-186),
returning success together with the local filesystem after the call.
`removeOk lp` tells whether the cleanup `os.remove` in the timeout branch
succeeds; its failure is swallowed by `except Exception: pass`. -/
def pull_file (outcome : PullOutcome) (removeOk : String → Bool)
    (local_path : String) (fs : LocalFS) : Bool × LocalFS :=
  match outcome with
  | .completed exitZero after =>
    let fs1 := setFile fs local_path after
    if exitZero = false then (false, fs1)
    else if (fs1 local_path).isSome then (true, fs1)
    else (false, fs1)
  | .timeout after =>
    let fs1 := setFile fs local_path after
    if (fs1 local_path).isSome then
      if removeOk local_path then (false, removeFile fs1 local_path)
      else (false, fs1)
    else (false, fs1)

/-- State of the persisted `progress.json` file as `load_progress` finds
it: absent, unparsable (`json.JSONDecodeError`), unreadable (any other
exception), or a valid snapshot. -/
inductive FileRead where
  | absent
  | invalid
  | ioError
  | valid (m : Progress)
deriving DecidableEq, Repr

/-- `load_progress()` of `main.py` (lines 94-110). -/
def load_progress : FileRead → Progress
  | .absent => []
  | .invalid => []
  | .ioError => []
  | .valid m => m

/-- Environment of one run of `main()`: the results of every remote
primitive the script invokes.

* `startupConn`: result of the initial `check_adb_connection()`;
* `makedirsOk`: whether `os.makedirs(LOCAL_BACKUP_DIR, exist_ok=True)` at
  line 207 succeeds; that call sits outside every `try` (and `exist_ok`
  does not cover e.g. `LOCAL_BACKUP_DIR` existing as a regular file, or a
  permission error), so on failure the exception propagates out of
  `main()` and the run ends with no summary;
* `files`: the list returned by `get_all_files_from_device()` (its own
  error paths all return the empty list);
* `connOk n`: result of the periodic `check_adb_connection()` performed
  when `processed_files = n`;
* `deviceSize p`: result of `get_file_size_on_device(p)`;
* `pull p`: outcome of the `adb pull` subprocess for remote path `p`;
* `removeOk lp`: whether an `os.remove(lp)` call succeeds;
* `now n`: value of `time.time()` in the iteration with
  `processed_files = n`, as a natural number. -/
structure World where
  startupConn : Bool
  makedirsOk : Bool
  files : List String
  connOk : Nat → Bool
  deviceSize : String → Option Nat
  pull : String → PullOutcome
  removeOk : String → Bool
  now : Nat → Nat

/-- State of `main()`'s backup loop: the in-memory `progress` dict, the
persisted `progress.json` contents (`disk`), the local filesystem, the
four counters of lines 223-226, plus instrumentation: `pullCount` counts
invocations of `pull_file`, `checks` records each periodic
`check_adb_connection()` with the `processed_files` value at which it ran
and its result, and `halted` is set when the `break` of line 240 fires. -/
structure LoopState where
  progress : Progress
  disk : Progress
  fs : LocalFS
  processed : Nat
  successful : Nat
  skipped : Nat
  failed : Nat
  pullCount : Nat
  checks : List (Nat × Bool)
  halted : Bool

/-- The decide/transfer part of one loop iteration (`main.py` lines
242-268): consult `file_needs_backup`; skip, or call `pull_file` and on
success store a `ProgressRecord` and persist the whole dict
(`save_progress`, modelled as `disk := progress`). -/
def processFile (w : World) (st : LoopState) (android_path local_path : String) :
    LoopState :=
  let r := file_needs_backup w.deviceSize w.removeOk android_path local_path
    st.progress st.fs
  if r.1 then
    let pr := pull_file (w.pull android_path) w.removeOk local_path r.2
    if pr.1 then
      let progress' := st.progress.insert android_path
        ⟨true, w.now st.processed, local_path⟩
      { st with
        progress := progress'
        disk := progress'
        fs := pr.2
        processed := st.processed + 1
        successful := st.successful + 1
        pullCount := st.pullCount + 1 }
    else
      { st with
        fs := pr.2
        processed := st.processed + 1
        failed := st.failed + 1
        pullCount := st.pullCount + 1 }
  else
    { st with
      fs := r.2
      processed := st.processed + 1
      skipped := st.skipped + 1 }

/-- One full iteration of the `for android_path in android_files` loop
(`main.py` lines 231-268): derive the local path, run the periodic
connection re-check of lines 237-240 (recorded in `checks`; failure sets
`halted`, the model of `break`), then decide and transfer. An iteration
on a halted state does nothing. -/
def loopStep (w : World) (st : LoopState) (android_path : String) : LoopState :=
  if st.halted then st
  else
    let local_path := localPathFor android_path
    if st.processed % 10 = 0 ∧ 0 < st.processed then
      let ok := w.connOk st.processed
      let st1 := { st with checks := st.checks ++ [(st.processed, ok)] }
      if ok then processFile w st1 android_path local_path
      else { st1 with halted := true }
    else processFile w st android_path local_path

/-- The whole backup loop over the enumerated files. -/
def runLoop (w : World) (files : List String) (st : LoopState) : LoopState :=
  match files with
  | [] => st
  | p :: ps => runLoop w ps (loopStep w st p)

/-- Loop state at entry of the loop: counters zero, `progress` as loaded,
`disk` holding the snapshot that parses to that same mapping. -/
def initState (progress0 : Progress) (fs0 : LocalFS) : LoopState :=
  { progress := progress0, disk := progress0, fs := fs0, processed := 0,
    successful := 0, skipped := 0, failed := 0, pullCount := 0,
    checks := [], halted := false }

/-- The final four-line summary of `main.py` lines 278-282. -/
structure Summary where
  total : Nat
  successful : Nat
  skipped : Nat
  failed : Nat
deriving DecidableEq, Repr

/-- `main()` of `main.py` (lines 197-284): check the connection, create the
local backup root, enumerate. The run ends with no summary (`none`) on a
failed startup check (clean `return`, line 204), on a failing
`os.makedirs(LOCAL_BACKUP_DIR, exist_ok=True)` (line 207; unguarded, the
exception escapes `main()`), or on an empty enumeration (clean `return`,
line 213); otherwise it loads progress, runs the loop and produces the
final summary. The returned `LoopState` is the state at the summary. -/
def mainRun (w : World) (progressFile : FileRead) (fs0 : LocalFS) :
    Option (Summary × LoopState) :=
  if w.startupConn = false then none
  else if w.makedirsOk = false then none
  else if w.files = [] then none
  else
    let progress0 := load_progress progressFile
    let final := runLoop w w.files (initState progress0 fs0)
    some (⟨w.files.length, final.successful, final.skipped, final.failed⟩, final)

/-! ### Concrete fixtures used by the witness theorems -/

/-- An empty local filesystem. -/
def emptyFS : LocalFS := fun _ => none

/-- A healthy world with two remote files whose pulls succeed and whose
sizes are stable. -/
def wGood : World where
  startupConn := true
  makedirsOk := true
  files := ["/sdcard/a", "/sdcard/b"]
  connOk := fun _ => true
  deviceSize := fun _ => some 3
  pull := fun _ => PullOutcome.completed true (some 3)
  removeOk := fun _ => true
  now := fun _ => 42

/-- A world whose periodic connection re-checks all fail. -/
def wDown : World where
  startupConn := true
  makedirsOk := true
  files := ["/sdcard/a", "/sdcard/b"]
  connOk := fun _ => false
  deviceSize := fun _ => some 3
  pull := fun _ => PullOutcome.completed true (some 3)
  removeOk := fun _ => true
  now := fun _ => 42

/-- A loop state sitting at the boundary before the 11th file. -/
def stAt10 : LoopState :=
  { initState [] emptyFS with processed := 10, skipped := 10 }

/-- A world whose startup connection check fails. -/
def wNoConn : World where
  startupConn := false
  makedirsOk := true
  files := ["/sdcard/a"]
  connOk := fun _ => true
  deviceSize := fun _ => none
  pull := fun _ => PullOutcome.completed true none
  removeOk := fun _ => true
  now := fun _ => 0

/-- A world whose startup connection is live and whose enumeration is
non-empty, but where creating the local backup root fails (for instance
because `android_backup` exists as a regular file). -/
def wBadDir : World where
  startupConn := true
  makedirsOk := false
  files := ["/sdcard/a"]
  connOk := fun _ => true
  deviceSize := fun _ => some 3
  pull := fun _ => PullOutcome.completed true (some 3)
  removeOk := fun _ => true
  now := fun _ => 0

/-- A one-record progress store used in the decision-engine witnesses. -/
def progA : Progress := [("/sdcard/a", ⟨true, 7, "android_backup/sdcard/a"⟩)]

/-- A local filesystem holding one file of size 3. -/
def fsA : LocalFS := fun q => if q == "android_backup/sdcard/a" then some 3 else none

/-! ### General lemmas about the embedded operations -/

theorem setFile_self (fs : LocalFS) (p : String) (v : Option Nat) :
    setFile fs p v p = v := by
  simp [setFile]

theorem setFile_other (fs : LocalFS) (p : String) (v : Option Nat) (q : String)
    (h : q ≠ p) : setFile fs p v q = fs q := by
  simp [setFile, h]

theorem head_dropWhile_slash (l : List Char) :
    (l.dropWhile (· == '/')).head? ≠ some '/' := by
  induction l with
  | nil => simp
  | cons c t ih =>
    by_cases h : c = '/'
    · simpa [List.dropWhile_cons, h] using ih
    · simp [List.dropWhile_cons, h]

theorem head_lstripSlash (p : String) : (lstripSlash p).data.head? ≠ some '/' :=
  head_dropWhile_slash p.data

/-- `file_needs_backup` when the record is missing or the local file does
not exist: the first branch of the source. -/
theorem fnb_guard_false (dev : String → Option Nat) (rok : String → Bool)
    (ap lp : String) (progress : Progress) (fs : LocalFS)
    (hg : ¬ (progress.hasKey ap = true ∧ (fs lp).isSome = true)) :
    file_needs_backup dev rok ap lp progress fs = (true, fs) := by
  unfold file_needs_backup
  rw [if_neg]
  simpa using hg

/-- `file_needs_backup` in the size-match case. -/
theorem fnb_match (dev : String → Option Nat) (rok : String → Bool)
    (ap lp : String) (progress : Progress) (fs : LocalFS) (s : Nat)
    (hk : progress.hasKey ap = true) (hfs : fs lp = some s)
    (hdev : dev ap = some s) :
    file_needs_backup dev rok ap lp progress fs = (false, fs) := by
  unfold file_needs_backup
  rw [if_pos (by simp [hk, hfs])]
  simp only [hfs, Option.getD_some]
  rw [if_pos hdev]

/-- `file_needs_backup` in the mismatch case when the delete succeeds. -/
theorem fnb_mismatch_rm (dev : String → Option Nat) (rok : String → Bool)
    (ap lp : String) (progress : Progress) (fs : LocalFS) (s : Nat)
    (hk : progress.hasKey ap = true) (hfs : fs lp = some s)
    (hdev : dev ap ≠ some s) (hr : rok lp = true) :
    file_needs_backup dev rok ap lp progress fs = (true, removeFile fs lp) := by
  unfold file_needs_backup
  rw [if_pos (by simp [hk, hfs])]
  simp only [hfs, Option.getD_some]
  rw [if_neg hdev, if_pos hr]

/-- `file_needs_backup` in the mismatch case when the delete raises (the
exception is swallowed and the filesystem is unchanged). -/
theorem fnb_mismatch_norm (dev : String → Option Nat) (rok : String → Bool)
    (ap lp : String) (progress : Progress) (fs : LocalFS) (s : Nat)
    (hk : progress.hasKey ap = true) (hfs : fs lp = some s)
    (hdev : dev ap ≠ some s) (hr : rok lp = false) :
    file_needs_backup dev rok ap lp progress fs = (true, fs) := by
  unfold file_needs_backup
  rw [if_pos (by simp [hk, hfs])]
  simp only [hfs, Option.getD_some]
  rw [if_neg hdev, if_neg (by simp [hr])]

/-- The result of `file_needs_backup` is `true` whenever the sizes do not
match, whatever the delete does. -/
theorem fnb_mismatch_fst (dev : String → Option Nat) (rok : String → Bool)
    (ap lp : String) (progress : Progress) (fs : LocalFS) (s : Nat)
    (hk : progress.hasKey ap = true) (hfs : fs lp = some s)
    (hdev : dev ap ≠ some s) :
    (file_needs_backup dev rok ap lp progress fs).1 = true := by
  by_cases hr : rok lp = true
  · rw [fnb_mismatch_rm dev rok ap lp progress fs s hk hfs hdev hr]
  · rw [fnb_mismatch_norm dev rok ap lp progress fs s hk hfs hdev
      (Bool.not_eq_true _ ▸ hr)]

/-! ### C6 -/

/-- C6: `load_progress` returns the empty mapping when the progress file
is absent, unparsable or unreadable (it catches every exception), and a
corrupt snapshot makes the whole run behave exactly as a run with no
progress file at all. Totality (it never raises) holds by construction of
the embedding: every `FileRead` constructor is mapped to a value. -/
theorem c6_load_progress_tolerant :
    load_progress FileRead.absent = [] ∧
    load_progress FileRead.invalid = [] ∧
    load_progress FileRead.ioError = [] ∧
    (∀ (w : World) (fs0 : LocalFS),
      mainRun w FileRead.invalid fs0 = mainRun w FileRead.absent fs0) :=
  ⟨rfl, rfl, rfl, fun _ _ => rfl⟩

/-! ### C8 (corrected) -/

/-- C8 counterexample: in `wBadDir` the startup connection check passes
and the enumeration is non-empty — neither of the claim's two fatal
cases — yet the run still ends outright without producing the final
summary, because the unguarded
`os.makedirs(LOCAL_BACKUP_DIR, exist_ok=True)` at `main.py` line 207
fails and its exception propagates out of `main()`. So the claim's
"exactly two cases" is false on the code. -/
theorem c8_fatal_counterexample :
    mainRun wBadDir FileRead.absent emptyFS = none ∧
    wBadDir.startupConn = true ∧ wBadDir.files ≠ [] := by
  refine ⟨rfl, rfl, ?_⟩
  decide

/-- C8 amended: the run ends early, without reaching the transfer loop or
the final summary, in exactly three cases: the startup connection check
fails, the creation of the local backup root directory fails (the
`os.makedirs` of line 207 sits outside every `try`, so its exception
crashes the run), or the enumeration yields no files; in every other case
it produces the final summary, whose total is the length of the
enumerated list and whose counts are the ones accumulated by the loop. -/
theorem c8_fatal_conditions (w : World) (pf : FileRead) (fs0 : LocalFS) :
    (mainRun w pf fs0 = none ↔
      w.startupConn = false ∨ w.makedirsOk = false ∨ w.files = []) ∧
    (∀ s f, mainRun w pf fs0 = some (s, f) →
      s = ⟨w.files.length, f.successful, f.skipped, f.failed⟩ ∧
      f = runLoop w w.files (initState (load_progress pf) fs0)) := by
  refine ⟨?_, ?_⟩
  · unfold mainRun
    by_cases h1 : w.startupConn = false <;> by_cases h2 : w.makedirsOk = false <;>
      by_cases h3 : w.files = [] <;> simp [h1, h2, h3]
  · intro s f h
    unfold mainRun at h
    by_cases h1 : w.startupConn = false <;> by_cases h2 : w.makedirsOk = false <;>
      by_cases h3 : w.files = [] <;> simp [h1, h2, h3] at h
    exact ⟨by rw [← h.1, ← h.2], h.2.symm⟩

theorem c8_fatal_conditions_witness :
    mainRun wNoConn FileRead.absent emptyFS = none ∧
    mainRun wBadDir FileRead.invalid emptyFS = none :=
  ⟨(c8_fatal_conditions wNoConn FileRead.absent emptyFS).1.mpr (Or.inl rfl),
    (c8_fatal_conditions wBadDir FileRead.invalid emptyFS).1.mpr
      (Or.inr (Or.inl rfl))⟩

/-! ### C1 -/

/-- C1: the decision of `file_needs_backup`. With no record in `progress`
or no local file it returns `true`, leaving the filesystem untouched.
With a record and a local file of size `s` it returns `false` exactly
when the live remote size is obtainable and equal to `s` (then nothing is
touched), and on an unequal or unobtainable remote size it deletes the
local file (and only it) and returns `true`. Stated under the assumption
that the deletion primitive succeeds; C9 covers the swallowed failure of
that delete. -/
theorem c1_decision_engine (dev : String → Option Nat) (rok : String → Bool)
    (ap lp : String) (progress : Progress) (fs : LocalFS)
    (hrm : rok lp = true) :
    (¬ (progress.hasKey ap = true ∧ (fs lp).isSome = true) →
      file_needs_backup dev rok ap lp progress fs = (true, fs)) ∧
    (∀ s, progress.hasKey ap = true → fs lp = some s →
      ((file_needs_backup dev rok ap lp progress fs).1 = false ↔ dev ap = some s) ∧
      (dev ap = some s → file_needs_backup dev rok ap lp progress fs = (false, fs)) ∧
      (dev ap ≠ some s →
        (file_needs_backup dev rok ap lp progress fs).1 = true ∧
        (file_needs_backup dev rok ap lp progress fs).2 lp = none ∧
        ∀ q, q ≠ lp → (file_needs_backup dev rok ap lp progress fs).2 q = fs q)) := by
  constructor
  · exact fnb_guard_false dev rok ap lp progress fs
  · intro s hk hfs
    by_cases hdev : dev ap = some s
    · rw [fnb_match dev rok ap lp progress fs s hk hfs hdev]
      exact ⟨by simp [hdev], fun _ => rfl, fun h => absurd hdev h⟩
    · rw [fnb_mismatch_rm dev rok ap lp progress fs s hk hfs hdev hrm]
      refine ⟨by simp [hdev], fun h => absurd h hdev, fun _ => ⟨rfl, ?_, ?_⟩⟩
      · simp [removeFile, setFile]
      · intro q hq
        simp [removeFile, setFile, hq]

theorem c1_decision_engine_witness :
    ((fun _ => true : String → Bool) "android_backup/sdcard/a" = true) ∧
    file_needs_backup (fun _ => some 3) (fun _ => true) "/sdcard/a"
        "android_backup/sdcard/a" progA fsA = (false, fsA) :=
  ⟨rfl, ((c1_decision_engine (fun _ => some 3) (fun _ => true) "/sdcard/a"
      "android_backup/sdcard/a" progA fsA rfl).2 3 (by decide) (by decide)).2.1 rfl⟩

/-! ### C9 -/

/-- C9: `file_needs_backup` is total at its interface — every case of the
embedding (including an unobtainable remote size, which models every
error of the size query, and a failing delete, whose exception the
source's `except` swallows) returns a boolean. It returns `false` only in
the size-match case, so on any error it returns `true`; and in the
mismatch or unobtainable-size case it returns `true` even when the
deletion fails, in which case the local file is left in place. -/
theorem c9_needs_backup_error_paths (dev : String → Option Nat) (rok : String → Bool)
    (ap lp : String) (progress : Progress) (fs : LocalFS) :
    ((file_needs_backup dev rok ap lp progress fs).1 = false →
      progress.hasKey ap = true ∧ (fs lp).isSome = true ∧ dev ap = fs lp) ∧
    (∀ s, progress.hasKey ap = true → fs lp = some s → dev ap ≠ some s →
      (file_needs_backup dev rok ap lp progress fs).1 = true ∧
      (rok lp = false → (file_needs_backup dev rok ap lp progress fs).2 = fs)) := by
  constructor
  · intro h
    by_cases hg : progress.hasKey ap = true ∧ (fs lp).isSome = true
    · obtain ⟨s, hs⟩ := Option.isSome_iff_exists.mp hg.2
      by_cases hdev : dev ap = some s
      · exact ⟨hg.1, hg.2, by rw [hdev, hs]⟩
      · exact absurd h (by rw [fnb_mismatch_fst dev rok ap lp progress fs s hg.1 hs hdev]; simp)
    · rw [fnb_guard_false dev rok ap lp progress fs hg] at h
      exact absurd h (by simp)
  · intro s hk hfs hdev
    refine ⟨fnb_mismatch_fst dev rok ap lp progress fs s hk hfs hdev, ?_⟩
    intro hr
    rw [fnb_mismatch_norm dev rok ap lp progress fs s hk hfs hdev hr]

theorem c9_needs_backup_error_paths_witness :
    (file_needs_backup (fun _ => none) (fun _ => false) "/sdcard/a"
        "android_backup/sdcard/a" progA fsA).1 = true ∧
    (file_needs_backup (fun _ => none) (fun _ => false) "/sdcard/a"
        "android_backup/sdcard/a" progA fsA).2 = fsA := by
  have h := (c9_needs_backup_error_paths (fun _ => none) (fun _ => false)
    "/sdcard/a" "android_backup/sdcard/a" progA fsA).2 3 (by decide) (by decide)
    (by decide)
  exact ⟨h.1, h.2 rfl⟩

/-! ### C3 (corrected) -/

/-- C3 counterexample: a pull that times out leaving a partial local file
whose best-effort cleanup `os.remove` fails (the `except Exception: pass`
of `main.py` line 181-182 swallows that failure) returns failure but
leaves the local file in existence — the claim that after a timeout the
local file never exists is false on the code. -/
theorem c3_timeout_counterexample :
    (pull_file (PullOutcome.timeout (some 5)) (fun _ => false) "b" emptyFS).1 = false ∧
    (pull_file (PullOutcome.timeout (some 5)) (fun _ => false) "b" emptyFS).2 "b" = some 5 := by
  constructor <;> rfl

/-- C3 amended: if the pull primitive times out, `pull_file` returns
failure, and provided the best-effort deletion of the partial file does
not itself fail (its failure is swallowed) the local file for that path
does not exist afterwards. -/
theorem c3_timeout_cleanup (after : Option Nat) (rok : String → Bool)
    (lp : String) (fs : LocalFS) (hrm : rok lp = true) :
    (pull_file (PullOutcome.timeout after) rok lp fs).1 = false ∧
    (pull_file (PullOutcome.timeout after) rok lp fs).2 lp = none := by
  unfold pull_file
  cases after with
  | none => simp [setFile_self]
  | some v => simp [setFile_self, hrm, removeFile]

theorem c3_timeout_cleanup_witness :
    (pull_file (PullOutcome.timeout (some 5)) (fun _ => true) "b" emptyFS).1 = false ∧
    (pull_file (PullOutcome.timeout (some 5)) (fun _ => true) "b" emptyFS).2 "b" = none :=
  c3_timeout_cleanup (some 5) (fun _ => true) "b" emptyFS rfl

/-! ### C5 (corrected) -/

/-- C5 counterexample: the spec says the local path is obtained by
stripping the remote root prefix (`/sdcard/`) and reparenting under the
local root, which would give `android_backup/a.txt`; the code only strips
leading `'/'` characters (`lstrip('/')`), keeping the `sdcard` component,
and produces `android_backup/sdcard/a.txt`. -/
theorem c5_path_counterexample :
    localPathFor "/sdcard/a.txt" = "android_backup/sdcard/a.txt" ∧
    specLocalPath "/sdcard/a.txt" = "android_backup/a.txt" ∧
    localPathFor "/sdcard/a.txt" ≠ specLocalPath "/sdcard/a.txt" := by
  refine ⟨rfl, rfl, ?_⟩
  decide

/-- C5 amended: the local path used for mirroring is derived
deterministically from the remote path by stripping its leading `'/'`
characters only — not the whole remote root prefix, so the `sdcard`
component is kept — and reparenting the remainder under the local mirror
root. -/
theorem c5_local_path_derivation (p : String) :
    localPathFor p = LOCAL_BACKUP_DIR ++ "/" ++ lstripSlash p := by
  unfold localPathFor osPathJoin
  rw [if_neg (head_lstripSlash p), if_neg (by decide)]
  apply String.ext
  simp [String.data_append, lstripSlash, LOCAL_BACKUP_DIR]

/-! ### Lemmas about the orchestrator loop -/

theorem loopStep_halted (w : World) (st : LoopState) (p : String)
    (h : st.halted = true) : loopStep w st p = st := by
  unfold loopStep
  rw [if_pos h]

theorem runLoop_halted (w : World) (ps : List String) (st : LoopState)
    (h : st.halted = true) : runLoop w ps st = st := by
  induction ps with
  | nil => rfl
  | cons q t ih => rw [runLoop, loopStep_halted w st q h, ih]

/-- The skip branch of the loop body (`main.py` lines 243-248). -/
theorem processFile_skip (w : World) (st : LoopState) (ap lp : String)
    (h : (file_needs_backup w.deviceSize w.removeOk ap lp st.progress st.fs).1 = false) :
    processFile w st ap lp =
      { st with
        fs := (file_needs_backup w.deviceSize w.removeOk ap lp st.progress st.fs).2
        processed := st.processed + 1
        skipped := st.skipped + 1 } := by
  unfold processFile
  rw [if_neg (by simp [h])]

/-- The successful-pull branch of the loop body (`main.py` lines 253-262). -/
theorem processFile_pull_success (w : World) (st : LoopState) (ap lp : String)
    (h : (file_needs_backup w.deviceSize w.removeOk ap lp st.progress st.fs).1 = true)
    (hs : (pull_file (w.pull ap) w.removeOk lp
      (file_needs_backup w.deviceSize w.removeOk ap lp st.progress st.fs).2).1 = true) :
    processFile w st ap lp =
      { st with
        progress := st.progress.insert ap ⟨true, w.now st.processed, lp⟩
        disk := st.progress.insert ap ⟨true, w.now st.processed, lp⟩
        fs := (pull_file (w.pull ap) w.removeOk lp
          (file_needs_backup w.deviceSize w.removeOk ap lp st.progress st.fs).2).2
        processed := st.processed + 1
        successful := st.successful + 1
        pullCount := st.pullCount + 1 } := by
  unfold processFile
  rw [if_pos h, if_pos hs]

/-- The failed-pull branch of the loop body (`main.py` lines 263-265). -/
theorem processFile_pull_fail (w : World) (st : LoopState) (ap lp : String)
    (h : (file_needs_backup w.deviceSize w.removeOk ap lp st.progress st.fs).1 = true)
    (hs : (pull_file (w.pull ap) w.removeOk lp
      (file_needs_backup w.deviceSize w.removeOk ap lp st.progress st.fs).2).1 = false) :
    processFile w st ap lp =
      { st with
        fs := (pull_file (w.pull ap) w.removeOk lp
          (file_needs_backup w.deviceSize w.removeOk ap lp st.progress st.fs).2).2
        processed := st.processed + 1
        failed := st.failed + 1
        pullCount := st.pullCount + 1 } := by
  unfold processFile
  rw [if_pos h, if_neg (by simp [hs])]

/-- A non-halted iteration where the periodic re-check is not due. -/
theorem loopStep_not_due (w : World) (st : LoopState) (p : String)
    (hh : st.halted = false)
    (hd : ¬ (st.processed % 10 = 0 ∧ 0 < st.processed)) :
    loopStep w st p = processFile w st p (localPathFor p) := by
  unfold loopStep
  rw [if_neg (by simp [hh]), if_neg hd]

/-- A non-halted iteration where the re-check is due and passes. -/
theorem loopStep_due_ok (w : World) (st : LoopState) (p : String)
    (hh : st.halted = false)
    (hd : st.processed % 10 = 0 ∧ 0 < st.processed)
    (hc : w.connOk st.processed = true) :
    loopStep w st p =
      processFile w { st with checks := st.checks ++ [(st.processed, true)] }
        p (localPathFor p) := by
  unfold loopStep
  rw [if_neg (by simp [hh]), if_pos hd]
  simp only [hc, if_true]

/-- A non-halted iteration where the re-check is due and fails: the model
of the `break` at `main.py` line 240. -/
theorem loopStep_due_fail (w : World) (st : LoopState) (p : String)
    (hh : st.halted = false)
    (hd : st.processed % 10 = 0 ∧ 0 < st.processed)
    (hc : w.connOk st.processed = false) :
    loopStep w st p =
      { st with checks := st.checks ++ [(st.processed, false)], halted := true } := by
  unfold loopStep
  rw [if_neg (by simp [hh]), if_pos hd]
  simp only [hc, Bool.false_eq_true, if_false]

/-! ### C2 -/

/-- C2: in every live iteration of the orchestrator loop that invokes the
transfer executor (the decision engine returned `true`; the loop is not
halted and the periodic re-check, when due, passes): on a successful pull
the in-memory progress gains the record
`(completed := true, timestamp := now, local_path)` for that remote path
and the whole mapping is persisted to disk in the same iteration; on a
failed pull neither the in-memory progress nor the persisted snapshot
changes. -/
theorem c2_progress_on_pull (w : World) (st : LoopState) (ap : String)
    (hh : st.halted = false)
    (hc : st.processed % 10 = 0 → 0 < st.processed → w.connOk st.processed = true)
    (hneeds : (file_needs_backup w.deviceSize w.removeOk ap (localPathFor ap)
      st.progress st.fs).1 = true) :
    (loopStep w st ap).pullCount = st.pullCount + 1 ∧
    ((pull_file (w.pull ap) w.removeOk (localPathFor ap)
        (file_needs_backup w.deviceSize w.removeOk ap (localPathFor ap)
          st.progress st.fs).2).1 = true →
      (loopStep w st ap).progress
        = st.progress.insert ap ⟨true, w.now st.processed, localPathFor ap⟩ ∧
      (loopStep w st ap).disk = (loopStep w st ap).progress) ∧
    ((pull_file (w.pull ap) w.removeOk (localPathFor ap)
        (file_needs_backup w.deviceSize w.removeOk ap (localPathFor ap)
          st.progress st.fs).2).1 = false →
      (loopStep w st ap).progress = st.progress ∧
      (loopStep w st ap).disk = st.disk) := by
  by_cases hd : st.processed % 10 = 0 ∧ 0 < st.processed
  · rw [loopStep_due_ok w st ap hh hd (hc hd.1 hd.2)]
    by_cases hp : (pull_file (w.pull ap) w.removeOk (localPathFor ap)
        (file_needs_backup w.deviceSize w.removeOk ap (localPathFor ap)
          st.progress st.fs).2).1 = true
    · rw [processFile_pull_success]
      · exact ⟨rfl, fun _ => ⟨rfl, rfl⟩, fun h => absurd hp (by simp [h])⟩
      · exact hneeds
      · exact hp
    · rw [processFile_pull_fail]
      · exact ⟨rfl, fun h => absurd h hp, fun _ => ⟨rfl, rfl⟩⟩
      · exact hneeds
      · exact Bool.not_eq_true _ ▸ hp
  · rw [loopStep_not_due w st ap hh hd]
    by_cases hp : (pull_file (w.pull ap) w.removeOk (localPathFor ap)
        (file_needs_backup w.deviceSize w.removeOk ap (localPathFor ap)
          st.progress st.fs).2).1 = true
    · rw [processFile_pull_success w st ap (localPathFor ap) hneeds hp]
      exact ⟨rfl, fun _ => ⟨rfl, rfl⟩, fun h => absurd hp (by simp [h])⟩
    · rw [processFile_pull_fail w st ap (localPathFor ap) hneeds
        (Bool.not_eq_true _ ▸ hp)]
      exact ⟨rfl, fun h => absurd h hp, fun _ => ⟨rfl, rfl⟩⟩

theorem c2_progress_on_pull_witness :
    (loopStep wGood (initState [] emptyFS) "/sdcard/a").pullCount = 1 ∧
    (loopStep wGood (initState [] emptyFS) "/sdcard/a").progress
      = Progress.insert [] "/sdcard/a" ⟨true, 42, localPathFor "/sdcard/a"⟩ ∧
    (loopStep wGood (initState [] emptyFS) "/sdcard/a").disk
      = (loopStep wGood (initState [] emptyFS) "/sdcard/a").progress := by
  have h := c2_progress_on_pull wGood (initState [] emptyFS) "/sdcard/a" rfl
    (fun _ h => absurd h (by decide)) (by decide)
  have hp := h.2.1 (by decide)
  exact ⟨h.1, hp.1, hp.2⟩

/-! ### C10 -/

theorem processFile_counters (w : World) (st : LoopState) (ap lp : String)
    (h : st.successful + st.skipped + st.failed = st.processed) :
    (processFile w st ap lp).successful + (processFile w st ap lp).skipped
        + (processFile w st ap lp).failed = (processFile w st ap lp).processed ∧
    (processFile w st ap lp).processed = st.processed + 1 := by
  by_cases h1 : (file_needs_backup w.deviceSize w.removeOk ap lp st.progress st.fs).1 = true
  · by_cases h2 : (pull_file (w.pull ap) w.removeOk lp
        (file_needs_backup w.deviceSize w.removeOk ap lp st.progress st.fs).2).1 = true
    · rw [processFile_pull_success w st ap lp h1 h2]
      exact ⟨by dsimp only; omega, rfl⟩
    · rw [processFile_pull_fail w st ap lp h1 (Bool.not_eq_true _ ▸ h2)]
      exact ⟨by dsimp only; omega, rfl⟩
  · rw [processFile_skip w st ap lp (Bool.not_eq_true _ ▸ h1)]
    exact ⟨by dsimp only; omega, rfl⟩

theorem loopStep_counters (w : World) (st : LoopState) (p : String)
    (h : st.successful + st.skipped + st.failed = st.processed) :
    (loopStep w st p).successful + (loopStep w st p).skipped + (loopStep w st p).failed
        = (loopStep w st p).processed ∧
    (loopStep w st p).processed ≤ st.processed + 1 := by
  by_cases hh : st.halted = true
  · rw [loopStep_halted w st p hh]
    exact ⟨h, Nat.le_succ _⟩
  have hh' : st.halted = false := Bool.not_eq_true _ ▸ hh
  by_cases hd : st.processed % 10 = 0 ∧ 0 < st.processed
  · by_cases hc : w.connOk st.processed = true
    · rw [loopStep_due_ok w st p hh' hd hc]
      have := processFile_counters w
        { st with checks := st.checks ++ [(st.processed, true)] } p (localPathFor p) h
      exact ⟨this.1, Nat.le_of_eq this.2⟩
    · rw [loopStep_due_fail w st p hh' hd (Bool.not_eq_true _ ▸ hc)]
      exact ⟨h, Nat.le_succ _⟩
  · rw [loopStep_not_due w st p hh' hd]
    have := processFile_counters w st p (localPathFor p) h
    exact ⟨this.1, Nat.le_of_eq this.2⟩

theorem runLoop_counters (w : World) (ps : List String) :
    ∀ st : LoopState, st.successful + st.skipped + st.failed = st.processed →
      (runLoop w ps st).successful + (runLoop w ps st).skipped + (runLoop w ps st).failed
          = (runLoop w ps st).processed ∧
      (runLoop w ps st).processed ≤ st.processed + ps.length := by
  induction ps with
  | nil => exact fun st h => ⟨h, by simp [runLoop]⟩
  | cons q t ih =>
    intro st h
    have h1 := loopStep_counters w st q h
    have h2 := ih (loopStep w st q) h1.1
    refine ⟨h2.1, ?_⟩
    show (runLoop w t (loopStep w st q)).processed ≤ st.processed + (q :: t).length
    have h3 := h2.2
    have h4 := h1.2
    simp only [List.length_cons]
    omega

/-- C10: at every iteration boundary of the orchestrator loop (the state
after processing any prefix of the enumerated list) the counters satisfy
`successful + skipped + failed = processed` and `processed ≤ total`, and
the final summary's counts satisfy the same relations with its stated
total, which is the length of the enumerated list. -/
theorem c10_counter_invariant (w : World) (pf : FileRead) (fs0 : LocalFS) :
    (∀ n : Nat,
      (runLoop w (w.files.take n) (initState (load_progress pf) fs0)).successful
        + (runLoop w (w.files.take n) (initState (load_progress pf) fs0)).skipped
        + (runLoop w (w.files.take n) (initState (load_progress pf) fs0)).failed
        = (runLoop w (w.files.take n) (initState (load_progress pf) fs0)).processed ∧
      (runLoop w (w.files.take n) (initState (load_progress pf) fs0)).processed
        ≤ w.files.length) ∧
    (w.startupConn = true → w.makedirsOk = true → w.files ≠ [] →
      ∃ s f, mainRun w pf fs0 = some (s, f) ∧
        s.successful + s.skipped + s.failed = f.processed ∧
        f.processed ≤ s.total ∧ s.total = w.files.length) := by
  constructor
  · intro n
    have h := runLoop_counters w (w.files.take n) (initState (load_progress pf) fs0) rfl
    refine ⟨h.1, le_trans h.2 ?_⟩
    show 0 + (w.files.take n).length ≤ w.files.length
    simp [List.length_take]
  · intro h1 hmk h2
    have key := runLoop_counters w w.files (initState (load_progress pf) fs0) rfl
    refine ⟨⟨w.files.length,
        (runLoop w w.files (initState (load_progress pf) fs0)).successful,
        (runLoop w w.files (initState (load_progress pf) fs0)).skipped,
        (runLoop w w.files (initState (load_progress pf) fs0)).failed⟩,
      runLoop w w.files (initState (load_progress pf) fs0), ?_, key.1, ?_, rfl⟩
    · unfold mainRun
      rw [if_neg (by simp [h1]), if_neg (by simp [hmk]), if_neg h2]
    · simpa [initState] using key.2

theorem c10_counter_invariant_witness :
    ∃ s f, mainRun wGood FileRead.absent emptyFS = some (s, f) ∧
      s.successful + s.skipped + s.failed = f.processed ∧
      f.processed ≤ s.total ∧ s.total = wGood.files.length :=
  (c10_counter_invariant wGood FileRead.absent emptyFS).2 rfl rfl (by decide)

/-! ### C7 -/

theorem processFile_checks (w : World) (st : LoopState) (ap lp : String) :
    (processFile w st ap lp).checks = st.checks := by
  by_cases h1 : (file_needs_backup w.deviceSize w.removeOk ap lp st.progress st.fs).1 = true
  · by_cases h2 : (pull_file (w.pull ap) w.removeOk lp
        (file_needs_backup w.deviceSize w.removeOk ap lp st.progress st.fs).2).1 = true
    · rw [processFile_pull_success w st ap lp h1 h2]
    · rw [processFile_pull_fail w st ap lp h1 (Bool.not_eq_true _ ▸ h2)]
  · rw [processFile_skip w st ap lp (Bool.not_eq_true _ ▸ h1)]

theorem processFile_halted (w : World) (st : LoopState) (ap lp : String) :
    (processFile w st ap lp).halted = st.halted := by
  by_cases h1 : (file_needs_backup w.deviceSize w.removeOk ap lp st.progress st.fs).1 = true
  · by_cases h2 : (pull_file (w.pull ap) w.removeOk lp
        (file_needs_backup w.deviceSize w.removeOk ap lp st.progress st.fs).2).1 = true
    · rw [processFile_pull_success w st ap lp h1 h2]
    · rw [processFile_pull_fail w st ap lp h1 (Bool.not_eq_true _ ▸ h2)]
  · rw [processFile_skip w st ap lp (Bool.not_eq_true _ ▸ h1)]

theorem append_one_ne (l : List (Nat × Bool)) (x : Nat × Bool) : l ++ [x] ≠ l := by
  intro h
  have := congrArg List.length h
  simp at this

/-- C7: the periodic connection re-check. In every live iteration the
re-check runs exactly when the count of already-processed files is a
positive multiple of 10 (so never before the first file), and records the
result of `check_adb_connection` for that count; when a due re-check
fails, the loop halts with all counters frozen and the remaining files
are never touched; and whenever the loop was entered at all, the run
still ends in the final summary built from the accumulated counters. -/
theorem c7_periodic_recheck :
    (∀ (w : World) (st : LoopState) (p : String), st.halted = false →
      ((loopStep w st p).checks
          = st.checks ++ [(st.processed, w.connOk st.processed)]
        ∨ (loopStep w st p).checks = st.checks) ∧
      ((loopStep w st p).checks ≠ st.checks ↔
        st.processed % 10 = 0 ∧ 0 < st.processed)) ∧
    (∀ (w : World) (st : LoopState) (p : String) (ps : List String),
      st.halted = false → st.processed % 10 = 0 → 0 < st.processed →
      w.connOk st.processed = false →
      (loopStep w st p).halted = true ∧
      (loopStep w st p).processed = st.processed ∧
      (loopStep w st p).successful = st.successful ∧
      (loopStep w st p).skipped = st.skipped ∧
      (loopStep w st p).failed = st.failed ∧
      runLoop w ps (loopStep w st p) = loopStep w st p) ∧
    (∀ (w : World) (pf : FileRead) (fs0 : LocalFS),
      w.startupConn = true → w.makedirsOk = true → w.files ≠ [] →
      ∃ f, mainRun w pf fs0
        = some (⟨w.files.length, f.successful, f.skipped, f.failed⟩, f)) := by
  refine ⟨?_, ?_, ?_⟩
  · intro w st p hh
    by_cases hd : st.processed % 10 = 0 ∧ 0 < st.processed
    · by_cases hc : w.connOk st.processed = true
      · rw [loopStep_due_ok w st p hh hd hc, processFile_checks]
        refine ⟨Or.inl (by rw [hc]), ?_⟩
        dsimp only
        exact ⟨fun _ => hd, fun _ => append_one_ne _ _⟩
      · have hc' : w.connOk st.processed = false := Bool.not_eq_true _ ▸ hc
        rw [loopStep_due_fail w st p hh hd hc']
        refine ⟨Or.inl (by rw [hc']), ?_⟩
        dsimp only
        exact ⟨fun _ => hd, fun _ => append_one_ne _ _⟩
    · rw [loopStep_not_due w st p hh hd, processFile_checks]
      exact ⟨Or.inr rfl, by simp [hd]⟩
  · intro w st p ps hh h10 hpos hc
    rw [loopStep_due_fail w st p hh ⟨h10, hpos⟩ hc]
    refine ⟨rfl, rfl, rfl, rfl, rfl, ?_⟩
    exact runLoop_halted w ps _ rfl
  · intro w pf fs0 h1 hmk h2
    refine ⟨runLoop w w.files (initState (load_progress pf) fs0), ?_⟩
    unfold mainRun
    rw [if_neg (by simp [h1]), if_neg (by simp [hmk]), if_neg h2]

theorem c7_periodic_recheck_witness :
    ((loopStep wGood (initState [] emptyFS) "/sdcard/a").checks
        ≠ (initState [] emptyFS).checks
      ↔ (initState [] emptyFS).processed % 10 = 0
        ∧ 0 < (initState [] emptyFS).processed) ∧
    (loopStep wDown stAt10 "/sdcard/a").halted = true ∧
    (loopStep wDown stAt10 "/sdcard/a").skipped = stAt10.skipped ∧
    runLoop wDown ["/sdcard/b"] (loopStep wDown stAt10 "/sdcard/a")
      = loopStep wDown stAt10 "/sdcard/a" ∧
    (∃ f, mainRun wDown FileRead.absent emptyFS
      = some (⟨wDown.files.length, f.successful, f.skipped, f.failed⟩, f)) := by
  have h1 := c7_periodic_recheck.1 wGood (initState [] emptyFS) "/sdcard/a" rfl
  have h2 := c7_periodic_recheck.2.1 wDown stAt10 "/sdcard/a" ["/sdcard/b"]
    rfl rfl (by decide) rfl
  have h3 := c7_periodic_recheck.2.2 wDown FileRead.absent emptyFS rfl rfl (by decide)
  exact ⟨h1.2, h2.1, h2.2.2.2.1, h2.2.2.2.2.2, h3⟩

/-! ### Lemmas towards C4 -/

theorem any_map_insert (pr : Progress) (k : String) (v : ProgressRecord) :
    (pr.map (fun e => if e.1 == k then (k, v) else e)).any (fun e => e.1 == k)
      = pr.any (fun e => e.1 == k) := by
  induction pr with
  | nil => rfl
  | cons a t ih =>
    simp only [List.map_cons, List.any_cons, ih]
    by_cases hak : a.1 = k
    · simp [hak]
    · simp [hak]

theorem any_map_other (pr : Progress) (k q : String) (v : ProgressRecord)
    (h : pr.any (fun e => e.1 == q) = true) :
    (pr.map (fun e => if e.1 == k then (k, v) else e)).any (fun e => e.1 == q)
      = true := by
  induction pr with
  | nil => simp at h
  | cons a t ih =>
    simp only [List.any_cons, Bool.or_eq_true] at h
    simp only [List.map_cons, List.any_cons, Bool.or_eq_true]
    rcases h with h | h
    · left
      have hq : a.1 = q := by simpa using h
      by_cases hak : a.1 = k
      · have hkq : k = q := hak ▸ hq
        simp [hak, hkq]
      · have hqk : ¬ q = k := fun hh => hak (by rw [hq, hh])
        simp [hqk, hq]
    · right
      exact ih h

theorem hasKey_insert_self (pr : Progress) (k : String) (v : ProgressRecord) :
    (pr.insert k v).hasKey k = true := by
  unfold Progress.insert
  by_cases h : pr.hasKey k = true
  · rw [if_pos h]
    show (pr.map fun e => if e.1 == k then (k, v) else e).any (fun e => e.1 == k)
      = true
    rw [any_map_insert]
    exact h
  · rw [if_neg h]
    simp [Progress.hasKey]

theorem hasKey_insert_mono (pr : Progress) (k : String) (v : ProgressRecord)
    (q : String) (h : pr.hasKey q = true) :
    (pr.insert k v).hasKey q = true := by
  unfold Progress.insert
  by_cases hk : pr.hasKey k = true
  · rw [if_pos hk]
    exact any_map_other pr k q v h
  · rw [if_neg hk]
    simp only [Progress.hasKey, List.any_append, Bool.or_eq_true]
    exact Or.inl h

/-- `file_needs_backup` answers `false` only in the size-match branch, and
then it has touched nothing. -/
theorem fnb_false_inv (dev : String → Option Nat) (rok : String → Bool)
    (ap lp : String) (progress : Progress) (fs : LocalFS)
    (h : (file_needs_backup dev rok ap lp progress fs).1 = false) :
    progress.hasKey ap = true ∧ dev ap = fs lp ∧ (fs lp).isSome = true ∧
    (file_needs_backup dev rok ap lp progress fs).2 = fs := by
  by_cases hg : progress.hasKey ap = true ∧ (fs lp).isSome = true
  · obtain ⟨s, hs⟩ := Option.isSome_iff_exists.mp hg.2
    by_cases hdev : dev ap = some s
    · rw [fnb_match dev rok ap lp progress fs s hg.1 hs hdev]
      exact ⟨hg.1, by rw [hdev, hs], hg.2, rfl⟩
    · exact absurd h (by
        rw [fnb_mismatch_fst dev rok ap lp progress fs s hg.1 hs hdev]; simp)
  · rw [fnb_guard_false dev rok ap lp progress fs hg] at h
    exact absurd h (by simp)

/-- A pull whose subprocess exits 0 and leaves a file behind succeeds and
the local filesystem holds exactly that file at the local path. -/
theorem pull_file_ok (after : Option Nat) (rok : String → Bool) (lp : String)
    (fs : LocalFS) (hsz : after.isSome = true) :
    pull_file (PullOutcome.completed true after) rok lp fs
      = (true, setFile fs lp after) := by
  unfold pull_file
  simp only [setFile_self, hsz, if_true]
  rw [if_neg (by simp)]

/-- `file_needs_backup` never touches any path other than its local path. -/
theorem fnb_fs_frame (dev : String → Option Nat) (rok : String → Bool)
    (ap lp : String) (progress : Progress) (fs : LocalFS) (x : String)
    (hx : x ≠ lp) :
    (file_needs_backup dev rok ap lp progress fs).2 x = fs x := by
  by_cases hg : progress.hasKey ap = true ∧ (fs lp).isSome = true
  · obtain ⟨s, hs⟩ := Option.isSome_iff_exists.mp hg.2
    by_cases hdev : dev ap = some s
    · rw [fnb_match dev rok ap lp progress fs s hg.1 hs hdev]
    · by_cases hr : rok lp = true
      · rw [fnb_mismatch_rm dev rok ap lp progress fs s hg.1 hs hdev hr]
        simp [removeFile, setFile, hx]
      · rw [fnb_mismatch_norm dev rok ap lp progress fs s hg.1 hs hdev
          (Bool.not_eq_true _ ▸ hr)]
  · rw [fnb_guard_false dev rok ap lp progress fs hg]

/-- The filesystem after a completed (non-timeout) pull subprocess. -/
theorem pull_snd_completed (ez : Bool) (after : Option Nat) (rok : String → Bool)
    (lp : String) (fs : LocalFS) :
    (pull_file (PullOutcome.completed ez after) rok lp fs).2 = setFile fs lp after := by
  simp only [pull_file]
  split
  · rfl
  · split <;> rfl

/-- The filesystem after a timed-out pull: the partial state, possibly
with the local path removed by the cleanup. -/
theorem pull_snd_timeout (after : Option Nat) (rok : String → Bool) (lp : String)
    (fs : LocalFS) :
    (pull_file (PullOutcome.timeout after) rok lp fs).2
        = removeFile (setFile fs lp after) lp ∨
    (pull_file (PullOutcome.timeout after) rok lp fs).2 = setFile fs lp after := by
  simp only [pull_file]
  split
  · split
    · exact Or.inl rfl
    · exact Or.inr rfl
  · exact Or.inr rfl

/-- `pull_file` never touches any path other than its local path. -/
theorem pull_fs_frame (o : PullOutcome) (rok : String → Bool) (lp : String)
    (fs : LocalFS) (x : String) (hx : x ≠ lp) :
    (pull_file o rok lp fs).2 x = fs x := by
  cases o with
  | completed ez after =>
    rw [pull_snd_completed]
    exact setFile_other fs lp after x hx
  | timeout after =>
    rcases pull_snd_timeout after rok lp fs with h | h <;> rw [h]
    · rw [removeFile, setFile_other _ lp none x hx]
      exact setFile_other fs lp after x hx
    · exact setFile_other fs lp after x hx

/-- One loop iteration writes the local filesystem only at the local path
of the file it processes. -/
theorem processFile_fs_frame (w : World) (st : LoopState) (ap lp x : String)
    (hx : x ≠ lp) : (processFile w st ap lp).fs x = st.fs x := by
  by_cases h1 : (file_needs_backup w.deviceSize w.removeOk ap lp st.progress st.fs).1 = true
  · by_cases h2 : (pull_file (w.pull ap) w.removeOk lp
        (file_needs_backup w.deviceSize w.removeOk ap lp st.progress st.fs).2).1 = true
    · rw [processFile_pull_success w st ap lp h1 h2]
      show (pull_file (w.pull ap) w.removeOk lp
        (file_needs_backup w.deviceSize w.removeOk ap lp st.progress st.fs).2).2 x
        = st.fs x
      rw [pull_fs_frame _ _ _ _ x hx, fnb_fs_frame _ _ _ _ _ _ x hx]
    · rw [processFile_pull_fail w st ap lp h1 (Bool.not_eq_true _ ▸ h2)]
      show (pull_file (w.pull ap) w.removeOk lp
        (file_needs_backup w.deviceSize w.removeOk ap lp st.progress st.fs).2).2 x
        = st.fs x
      rw [pull_fs_frame _ _ _ _ x hx, fnb_fs_frame _ _ _ _ _ _ x hx]
  · rw [processFile_skip w st ap lp (Bool.not_eq_true _ ▸ h1)]
    show (file_needs_backup w.deviceSize w.removeOk ap lp st.progress st.fs).2 x
      = st.fs x
    exact fnb_fs_frame _ _ _ _ _ _ x hx

/-- One loop iteration can only add records to the progress dict. -/
theorem processFile_hasKey_mono (w : World) (st : LoopState) (ap lp q : String)
    (h : st.progress.hasKey q = true) :
    (processFile w st ap lp).progress.hasKey q = true := by
  by_cases h1 : (file_needs_backup w.deviceSize w.removeOk ap lp st.progress st.fs).1 = true
  · by_cases h2 : (pull_file (w.pull ap) w.removeOk lp
        (file_needs_backup w.deviceSize w.removeOk ap lp st.progress st.fs).2).1 = true
    · rw [processFile_pull_success w st ap lp h1 h2]
      exact hasKey_insert_mono st.progress ap _ q h
    · rw [processFile_pull_fail w st ap lp h1 (Bool.not_eq_true _ ▸ h2)]
      exact h
  · rw [processFile_skip w st ap lp (Bool.not_eq_true _ ▸ h1)]
    exact h

theorem loopStep_fs_frame (w : World) (st : LoopState) (p x : String)
    (hx : x ≠ localPathFor p) : (loopStep w st p).fs x = st.fs x := by
  by_cases hh : st.halted = true
  · rw [loopStep_halted w st p hh]
  have hh' : st.halted = false := Bool.not_eq_true _ ▸ hh
  by_cases hd : st.processed % 10 = 0 ∧ 0 < st.processed
  · by_cases hc : w.connOk st.processed = true
    · rw [loopStep_due_ok w st p hh' hd hc]
      exact processFile_fs_frame w _ p (localPathFor p) x hx
    · rw [loopStep_due_fail w st p hh' hd (Bool.not_eq_true _ ▸ hc)]
  · rw [loopStep_not_due w st p hh' hd]
    exact processFile_fs_frame w st p (localPathFor p) x hx

theorem loopStep_hasKey_mono (w : World) (st : LoopState) (p q : String)
    (h : st.progress.hasKey q = true) :
    (loopStep w st p).progress.hasKey q = true := by
  by_cases hh : st.halted = true
  · rw [loopStep_halted w st p hh]
    exact h
  have hh' : st.halted = false := Bool.not_eq_true _ ▸ hh
  by_cases hd : st.processed % 10 = 0 ∧ 0 < st.processed
  · by_cases hc : w.connOk st.processed = true
    · rw [loopStep_due_ok w st p hh' hd hc]
      exact processFile_hasKey_mono w _ p (localPathFor p) q h
    · rw [loopStep_due_fail w st p hh' hd (Bool.not_eq_true _ ▸ hc)]
      exact h
  · rw [loopStep_not_due w st p hh' hd]
    exact processFile_hasKey_mono w st p (localPathFor p) q h

theorem runLoop_fs_frame (w : World) (l : List String) :
    ∀ (st : LoopState) (x : String), (∀ p ∈ l, x ≠ localPathFor p) →
      (runLoop w l st).fs x = st.fs x := by
  induction l with
  | nil => exact fun st x _ => rfl
  | cons p t ih =>
    intro st x hx
    show (runLoop w t (loopStep w st p)).fs x = st.fs x
    rw [ih (loopStep w st p) x (fun q hq => hx q (List.mem_cons_of_mem p hq)),
      loopStep_fs_frame w st p x (hx p (List.mem_cons_self p t))]

theorem runLoop_hasKey_mono (w : World) (l : List String) :
    ∀ (st : LoopState) (q : String), st.progress.hasKey q = true →
      (runLoop w l st).progress.hasKey q = true := by
  induction l with
  | nil => exact fun st q h => h
  | cons p t ih =>
    intro st q h
    exact ih (loopStep w st p) q (loopStep_hasKey_mono w st p q h)

/-- The property C4 needs after the first run: the remote path is
recorded and its mirrored local file carries exactly the live remote
size. -/
def backedUp (w : World) (p : String) (st : LoopState) : Prop :=
  st.progress.hasKey p = true ∧ st.fs (localPathFor p) = w.deviceSize p

theorem runLoop_preserves_backedUp (w : World) (l : List String)
    (st : LoopState) (q : String) (hq : backedUp w q st)
    (hne : localPathFor q ∉ l.map localPathFor) :
    backedUp w q (runLoop w l st) := by
  constructor
  · exact runLoop_hasKey_mono w l st q hq.1
  · rw [runLoop_fs_frame w l st (localPathFor q) ?_]
    · exact hq.2
    · intro p hp hgeq
      exact hne (hgeq ▸ List.mem_map_of_mem localPathFor hp)

/-- Processing a file whose pull primitive succeeds with the live remote
size (or that is already backed up) leaves it backed up. -/
theorem processFile_establishes (w : World) (st : LoopState) (p : String)
    (hp : w.pull p = PullOutcome.completed true (w.deviceSize p))
    (hsz : (w.deviceSize p).isSome = true) :
    backedUp w p (processFile w st p (localPathFor p)) := by
  by_cases h1 : (file_needs_backup w.deviceSize w.removeOk p (localPathFor p)
      st.progress st.fs).1 = true
  · have hpull : pull_file (w.pull p) w.removeOk (localPathFor p)
        (file_needs_backup w.deviceSize w.removeOk p (localPathFor p)
          st.progress st.fs).2
        = (true, setFile (file_needs_backup w.deviceSize w.removeOk p
            (localPathFor p) st.progress st.fs).2 (localPathFor p)
            (w.deviceSize p)) := by
      rw [hp]
      exact pull_file_ok (w.deviceSize p) w.removeOk (localPathFor p) _ hsz
    have h2 : (pull_file (w.pull p) w.removeOk (localPathFor p)
        (file_needs_backup w.deviceSize w.removeOk p (localPathFor p)
          st.progress st.fs).2).1 = true := by
      rw [hpull]
    rw [processFile_pull_success w st p (localPathFor p) h1 h2]
    constructor
    · exact hasKey_insert_self st.progress p _
    · show (pull_file (w.pull p) w.removeOk (localPathFor p)
        (file_needs_backup w.deviceSize w.removeOk p (localPathFor p)
          st.progress st.fs).2).2 (localPathFor p) = w.deviceSize p
      rw [hpull]
      exact setFile_self _ _ _
  · have h1' : (file_needs_backup w.deviceSize w.removeOk p (localPathFor p)
        st.progress st.fs).1 = false := Bool.not_eq_true _ ▸ h1
    obtain ⟨hk, hdev, _, hfs2⟩ := fnb_false_inv w.deviceSize w.removeOk p
      (localPathFor p) st.progress st.fs h1'
    rw [processFile_skip w st p (localPathFor p) h1']
    refine ⟨hk, ?_⟩
    show (file_needs_backup w.deviceSize w.removeOk p (localPathFor p)
      st.progress st.fs).2 (localPathFor p) = w.deviceSize p
    rw [hfs2, hdev]

theorem loopStep_establishes (w : World) (st : LoopState) (p : String)
    (hh : st.halted = false) (hc : w.connOk st.processed = true)
    (hp : w.pull p = PullOutcome.completed true (w.deviceSize p))
    (hsz : (w.deviceSize p).isSome = true) :
    backedUp w p (loopStep w st p) ∧ (loopStep w st p).halted = false := by
  by_cases hd : st.processed % 10 = 0 ∧ 0 < st.processed
  · rw [loopStep_due_ok w st p hh hd hc]
    refine ⟨processFile_establishes w _ p hp hsz, ?_⟩
    exact (processFile_halted w _ p (localPathFor p)).trans hh
  · rw [loopStep_not_due w st p hh hd]
    refine ⟨processFile_establishes w st p hp hsz, ?_⟩
    exact (processFile_halted w st p (localPathFor p)).trans hh

/-- Processing an already backed-up file takes the skip branch and leaves
everything but the `processed`/`skipped` counters unchanged. -/
theorem processFile_skips (w : World) (st : LoopState) (p : String)
    (hb : backedUp w p st) (hsz : (w.deviceSize p).isSome = true) :
    processFile w st p (localPathFor p) =
      { st with processed := st.processed + 1, skipped := st.skipped + 1 } := by
  obtain ⟨s, hs⟩ := Option.isSome_iff_exists.mp hsz
  have hfs : st.fs (localPathFor p) = some s := by rw [hb.2, hs]
  have hmatch := fnb_match w.deviceSize w.removeOk p (localPathFor p)
    st.progress st.fs s hb.1 hfs hs
  rw [processFile_skip w st p (localPathFor p) (by rw [hmatch])]
  rw [hmatch]

theorem loopStep_skips (w : World) (st : LoopState) (p : String)
    (hh : st.halted = false) (hc : w.connOk st.processed = true)
    (hb : backedUp w p st) (hsz : (w.deviceSize p).isSome = true) :
    (loopStep w st p).progress = st.progress ∧
    (loopStep w st p).fs = st.fs ∧
    (loopStep w st p).pullCount = st.pullCount ∧
    (loopStep w st p).successful = st.successful ∧
    (loopStep w st p).failed = st.failed ∧
    (loopStep w st p).skipped = st.skipped + 1 ∧
    (loopStep w st p).halted = false ∧
    (loopStep w st p).disk = st.disk := by
  by_cases hd : st.processed % 10 = 0 ∧ 0 < st.processed
  · rw [loopStep_due_ok w st p hh hd hc, processFile_skips]
    · exact ⟨rfl, rfl, rfl, rfl, rfl, rfl, hh, rfl⟩
    · exact hb
    · exact hsz
  · rw [loopStep_not_due w st p hh hd, processFile_skips w st p hb hsz]
    exact ⟨rfl, rfl, rfl, rfl, rfl, rfl, hh, rfl⟩

/-- The persisted snapshot always equals the in-memory dict: `main` only
writes `progress.json` through `save_progress(progress)` right after
mutating the dict. -/
theorem processFile_disk (w : World) (st : LoopState) (ap lp : String)
    (h : st.disk = st.progress) :
    (processFile w st ap lp).disk = (processFile w st ap lp).progress := by
  by_cases h1 : (file_needs_backup w.deviceSize w.removeOk ap lp st.progress st.fs).1 = true
  · by_cases h2 : (pull_file (w.pull ap) w.removeOk lp
        (file_needs_backup w.deviceSize w.removeOk ap lp st.progress st.fs).2).1 = true
    · rw [processFile_pull_success w st ap lp h1 h2]
    · rw [processFile_pull_fail w st ap lp h1 (Bool.not_eq_true _ ▸ h2)]
      exact h
  · rw [processFile_skip w st ap lp (Bool.not_eq_true _ ▸ h1)]
    exact h

theorem loopStep_disk (w : World) (st : LoopState) (p : String)
    (h : st.disk = st.progress) :
    (loopStep w st p).disk = (loopStep w st p).progress := by
  by_cases hh : st.halted = true
  · rw [loopStep_halted w st p hh]
    exact h
  have hh' : st.halted = false := Bool.not_eq_true _ ▸ hh
  by_cases hd : st.processed % 10 = 0 ∧ 0 < st.processed
  · by_cases hc : w.connOk st.processed = true
    · rw [loopStep_due_ok w st p hh' hd hc]
      exact processFile_disk w _ p (localPathFor p) h
    · rw [loopStep_due_fail w st p hh' hd (Bool.not_eq_true _ ▸ hc)]
      exact h
  · rw [loopStep_not_due w st p hh' hd]
    exact processFile_disk w st p (localPathFor p) h

theorem runLoop_disk (w : World) (l : List String) :
    ∀ st : LoopState, st.disk = st.progress →
      (runLoop w l st).disk = (runLoop w l st).progress := by
  induction l with
  | nil => exact fun st h => h
  | cons q t ih => exact fun st h => ih (loopStep w st q) (loopStep_disk w st q h)

/-- After a full healthy run, every enumerated file is backed up. -/
theorem runLoop_establishes (w : World) (hconn : ∀ n, w.connOk n = true)
    (l : List String) :
    ∀ st : LoopState, st.halted = false →
      (∀ p ∈ l, w.pull p = PullOutcome.completed true (w.deviceSize p)
        ∧ (w.deviceSize p).isSome = true) →
      (l.map localPathFor).Nodup →
      (runLoop w l st).halted = false ∧
      ∀ p ∈ l, backedUp w p (runLoop w l st) := by
  induction l with
  | nil => exact fun st hh _ _ => ⟨hh, fun p hp => absurd hp (List.not_mem_nil p)⟩
  | cons q t ih =>
    intro st hh hpull hnodup
    simp only [List.map_cons, List.nodup_cons] at hnodup
    have hq := hpull q (List.mem_cons_self q t)
    have hstep := loopStep_establishes w st q hh (hconn st.processed) hq.1 hq.2
    have iht := ih (loopStep w st q) hstep.2
      (fun p hp => hpull p (List.mem_cons_of_mem q hp)) hnodup.2
    refine ⟨iht.1, ?_⟩
    intro p hp
    rcases List.mem_cons.mp hp with rfl | hpt
    · exact runLoop_preserves_backedUp w t (loopStep w st p) p hstep.1 hnodup.1
    · exact iht.2 p hpt

/-- A run in which every enumerated file is already backed up performs no
pull: every file takes the skip branch. -/
theorem runLoop_all_skip (w : World) (hconn : ∀ n, w.connOk n = true)
    (l : List String) :
    ∀ st : LoopState, st.halted = false →
      (∀ p ∈ l, backedUp w p st ∧ (w.deviceSize p).isSome = true) →
      (runLoop w l st).pullCount = st.pullCount ∧
      (runLoop w l st).successful = st.successful ∧
      (runLoop w l st).failed = st.failed ∧
      (runLoop w l st).skipped = st.skipped + l.length := by
  induction l with
  | nil => exact fun st hh _ => ⟨rfl, rfl, rfl, rfl⟩
  | cons q t ih =>
    intro st hh hb
    have hq := hb q (List.mem_cons_self q t)
    have hstep := loopStep_skips w st q hh (hconn st.processed) hq.1 hq.2
    have hb' : ∀ p ∈ t, backedUp w p (loopStep w st q)
        ∧ (w.deviceSize p).isSome = true := by
      intro p hp
      have h0 := hb p (List.mem_cons_of_mem q hp)
      refine ⟨⟨?_, ?_⟩, h0.2⟩
      · rw [hstep.1]
        exact h0.1.1
      · rw [hstep.2.1]
        exact h0.1.2
    have iht := ih (loopStep w st q) hstep.2.2.2.2.2.2.1 hb'
    simp only [runLoop]
    refine ⟨?_, ?_, ?_, ?_⟩
    · rw [iht.1, hstep.2.2.1]
    · rw [iht.2.1, hstep.2.2.2.1]
    · rw [iht.2.2.1, hstep.2.2.2.2.1]
    · rw [iht.2.2.2, hstep.2.2.2.2.2.1]
      simp only [List.length_cons]
      omega

/-- `main()` under a live startup connection and a non-empty enumeration:
the run is the loop over the files followed by the summary. -/
theorem mainRun_eq (w : World) (pf : FileRead) (fs0 : LocalFS)
    (hstart : w.startupConn = true) (hmk : w.makedirsOk = true)
    (hne : w.files ≠ []) :
    mainRun w pf fs0 = some
      (⟨w.files.length,
        (runLoop w w.files (initState (load_progress pf) fs0)).successful,
        (runLoop w w.files (initState (load_progress pf) fs0)).skipped,
        (runLoop w w.files (initState (load_progress pf) fs0)).failed⟩,
      runLoop w w.files (initState (load_progress pf) fs0)) := by
  unfold mainRun
  rw [if_neg (by simp [hstart]), if_neg (by simp [hmk]), if_neg hne]

/-! ### C4 -/

/-- C4: idempotence. Run the sync once in a world where the connection
stays up, every pull succeeds leaving the file at its live remote size
(no remote changes), and distinct remote files mirror to distinct local
paths. A second run started from the progress snapshot and local mirror
the first run left behind invokes the transfer executor zero times: every
file takes the size-match skip branch, so the second summary reports
`successful = 0`, `failed = 0` and `skipped = total`. -/
theorem c4_second_run_no_transfers (w : World) (pf : FileRead) (fs0 : LocalFS)
    (hstart : w.startupConn = true) (hmk : w.makedirsOk = true)
    (hne : w.files ≠ [])
    (hconn : ∀ n, w.connOk n = true)
    (hpull : ∀ p ∈ w.files, w.pull p = PullOutcome.completed true (w.deviceSize p)
        ∧ (w.deviceSize p).isSome = true)
    (hnodup : (w.files.map localPathFor).Nodup) :
    ∃ s1 f1 s2 f2,
      mainRun w pf fs0 = some (s1, f1) ∧
      mainRun w (FileRead.valid f1.disk) f1.fs = some (s2, f2) ∧
      f2.pullCount = 0 ∧ s2.successful = 0 ∧ s2.failed = 0 ∧
      s2.skipped = w.files.length := by
  have hdisk := runLoop_disk w w.files (initState (load_progress pf) fs0) rfl
  have hest := runLoop_establishes w hconn w.files (initState (load_progress pf) fs0)
    rfl hpull hnodup
  have hb2 : ∀ p ∈ w.files,
      backedUp w p (initState
        (load_progress (FileRead.valid
          (runLoop w w.files (initState (load_progress pf) fs0)).disk))
        (runLoop w w.files (initState (load_progress pf) fs0)).fs)
      ∧ (w.deviceSize p).isSome = true := by
    intro p hp
    refine ⟨⟨?_, ?_⟩, (hpull p hp).2⟩
    · show (runLoop w w.files (initState (load_progress pf) fs0)).disk.hasKey p
        = true
      rw [hdisk]
      exact (hest.2 p hp).1
    · exact (hest.2 p hp).2
  have hskip := runLoop_all_skip w hconn w.files
    (initState (load_progress (FileRead.valid
      (runLoop w w.files (initState (load_progress pf) fs0)).disk))
      (runLoop w w.files (initState (load_progress pf) fs0)).fs) rfl hb2
  refine ⟨_, _, _, _, mainRun_eq w pf fs0 hstart hmk hne,
    mainRun_eq w (FileRead.valid
      (runLoop w w.files (initState (load_progress pf) fs0)).disk)
      (runLoop w w.files (initState (load_progress pf) fs0)).fs hstart hmk hne,
    ?_, ?_, ?_, ?_⟩
  · exact hskip.1
  · exact hskip.2.1
  · exact hskip.2.2.1
  · show (runLoop w w.files (initState
        (load_progress (FileRead.valid
          (runLoop w w.files (initState (load_progress pf) fs0)).disk))
        (runLoop w w.files (initState (load_progress pf) fs0)).fs)).skipped
      = w.files.length
    rw [hskip.2.2.2]
    simp [initState]

theorem c4_second_run_no_transfers_witness :
    ∃ s1 f1 s2 f2,
      mainRun wGood FileRead.absent emptyFS = some (s1, f1) ∧
      mainRun wGood (FileRead.valid f1.disk) f1.fs = some (s2, f2) ∧
      f2.pullCount = 0 ∧ s2.successful = 0 ∧ s2.failed = 0 ∧
      s2.skipped = wGood.files.length :=
  c4_second_run_no_transfers wGood FileRead.absent emptyFS rfl rfl (by decide)
    (fun _ => rfl) (fun p _ => ⟨rfl, rfl⟩) (by decide)

end AdbBackup
